import Mathlib

/-!
Verification development for the CineData ETL pipeline
(`src/scripts/etl.py`, class `CineDataEtl`).

The pipeline's core is embedded shallowly:

* Python values occurring in movie/genre records are modelled by `PyVal`
  (None, bool, int, float, str, list).  Floats are modelled by rationals:
  the pipeline never performs float arithmetic, it only type-checks,
  stores and compares the values.
* A Python dict (a record) is modelled as an association list
  `List (String × PyVal)` with unique keys, looked up first-match.
* `cleanup_data`, `filter_data` and `load_data_to_db` are translated
  function by function; fallible pandas operations become `Except`,
  and the database becomes an explicit `Store` record plus a log of
  write operations.
-/

/-- Model of the Python values the ETL records contain. -/
inductive PyVal where
  | none
  | vbool (b : Bool)
  | vint (n : Int)
  | vfloat (q : Rat)
  | vstr (s : String)
  | vlist (l : List PyVal)

/-- Structural (same-constructor) equality of Python values; used as the
fallback of `pyEq` when at least one side is not numeric.  (For lists it
compares elementwise structurally; Python would additionally identify
`1` with `1.0` inside lists, a case the pipeline never exercises.) -/
def pyStructEq : PyVal → PyVal → Bool
  | .none, .none => true
  | .vbool a, .vbool b => decide (a = b)
  | .vint a, .vint b => decide (a = b)
  | .vfloat a, .vfloat b => decide (a = b)
  | .vstr a, .vstr b => decide (a = b)
  | .vlist [], .vlist [] => true
  | .vlist (a :: as), .vlist (b :: bs) =>
      pyStructEq a b && pyStructEq (.vlist as) (.vlist bs)
  | _, _ => false

/-- Numeric view: Python treats `bool` as a subtype of `int`, and `==`
identifies `True`, `1` and `1.0`. -/
def toRatNum : PyVal → Option Rat
  | .vbool b => some (if b then 1 else 0)
  | .vint n => some (n : Rat)
  | .vfloat q => some q
  | _ => Option.none

/-- Python `==` on the modelled values: numeric values compare by value
across bool/int/float, everything else structurally. -/
def pyEq (a b : PyVal) : Bool :=
  match toRatNum a, toRatNum b with
  | some x, some y => decide (x = y)
  | _, _ => pyStructEq a b

theorem pyStructEq_refl : ∀ a : PyVal, pyStructEq a a = true
  | .none => by simp [pyStructEq]
  | .vbool b => by simp [pyStructEq]
  | .vint n => by simp [pyStructEq]
  | .vfloat q => by simp [pyStructEq]
  | .vstr s => by simp [pyStructEq]
  | .vlist [] => by simp [pyStructEq]
  | .vlist (a :: as) => by
      have h1 := pyStructEq_refl a
      have h2 := pyStructEq_refl (.vlist as)
      simp [pyStructEq, h1, h2]

theorem pyEq_refl (a : PyVal) : pyEq a a = true := by
  unfold pyEq
  cases h : toRatNum a with
  | none => simp [pyStructEq_refl]
  | some x => simp

/-- Python truthiness (`bool(x)`): None, False, 0, 0.0, "" and [] are
falsy, everything else truthy. -/
def truthy : PyVal → Bool
  | .none => false
  | .vbool b => b
  | .vint n => decide (n ≠ 0)
  | .vfloat q => decide (q ≠ 0)
  | .vstr s => decide (s ≠ "")
  | .vlist l => !l.isEmpty

/-- A Python dict with string keys, as produced by the TMDB JSON:
association list with unique keys, looked up first-match. -/
abbrev Record := List (String × PyVal)

/-- Model of `d[k]`: `none` models a raised `KeyError`. -/
def dictGetItem : Record → String → Option PyVal
  | [], _ => Option.none
  | (k0, v0) :: rest, k => if k0 = k then some v0 else dictGetItem rest k

/-- Model of `d.get(k, default)`. -/
def dictGetD : Record → String → PyVal → PyVal
  | [], _, d => d
  | (k0, v0) :: rest, k, d => if k0 = k then v0 else dictGetD rest k d

/-- Model of `d[k] = v`: overwrite the entry if the key exists, else
append a new entry (dict insertion order). -/
def dictSet : Record → String → PyVal → Record
  | [], k, v => [(k, v)]
  | (k0, v0) :: rest, k, v =>
      if k0 = k then (k, v) :: rest else (k0, v0) :: dictSet rest k v

/-- Whether key `k` is present in the record (`k in d`). -/
def hasKey (r : Record) (k : String) : Bool :=
  r.any (fun p => p.1 = k)

theorem dictGetD_dictSet_ne (r : Record) (k k2 : String) (v d : PyVal)
    (h : k2 ≠ k) : dictGetD (dictSet r k v) k2 d = dictGetD r k2 d := by
  induction r with
  | nil => simp [dictSet, dictGetD, Ne.symm h]
  | cons p rest ih =>
      obtain ⟨k0, v0⟩ := p
      by_cases hk : k0 = k
      · subst hk
        simp [dictSet, dictGetD, Ne.symm h]
      · simp [dictSet, dictGetD, hk]
        by_cases hk2 : k0 = k2
        · simp [hk2]
        · simp [hk2, ih]

theorem dictGetItem_eq_some_imp_getD (r : Record) (k : String) (v d : PyVal)
    (h : dictGetItem r k = some v) : dictGetD r k d = v := by
  induction r with
  | nil => simp [dictGetItem] at h
  | cons p rest ih =>
      obtain ⟨k0, v0⟩ := p
      by_cases hk : k0 = k
      · simp [dictGetItem, hk] at h
        simp [dictGetD, hk, h]
      · simp [dictGetItem, hk] at h
        simp [dictGetD, hk, ih h]

/-- Value of a decimal digit string (callers guarantee all-digit input). -/
def digitsVal (cs : List Char) : Nat :=
  cs.foldl (fun n c => n * 10 + (c.toNat - 48)) 0

/-- All-digit, non-empty character group. -/
def allDigits (cs : List Char) : Bool :=
  !cs.isEmpty && cs.all Char.isDigit

/-- Split a character list at every '-' (semantics of `str.split('-')`
for the single-character separator used by the date format). -/
def splitDash : List Char → List (List Char)
  | [] => [[]]
  | c :: rest =>
      let r := splitDash rest
      if c = '-' then [] :: r
      else
        match r with
        | [] => [[c]]
        | p :: ps => (c :: p) :: ps

def isLeapYear (y : Nat) : Bool :=
  (y % 4 = 0 && y % 100 ≠ 0) || y % 400 = 0

def daysInMonth (y m : Nat) : Nat :=
  if m = 2 then (if isLeapYear y then 29 else 28)
  else if m = 4 || m = 6 || m = 9 || m = 11 then 30
  else 31

/-- Model of `datetime.strptime(s, '%Y-%m-%d')` succeeding: CPython's
`_strptime` matches `%Y` as exactly four digits, `%m` as one or two
digits with value 1..12, `%d` as one or two digits with value 1..31,
requires the whole string to be consumed, and the `datetime`
constructor then validates `1 <= year` and the day against the length
of the month (leap years included). -/
def validYMD (s : String) : Bool :=
  match splitDash s.toList with
  | [y, m, d] =>
      allDigits y && y.length = 4 && 1 ≤ digitsVal y &&
      allDigits m && m.length ≤ 2 && 1 ≤ digitsVal m && digitsVal m ≤ 12 &&
      allDigits d && d.length ≤ 2 && 1 ≤ digitsVal d &&
      digitsVal d ≤ daysInMonth (digitsVal y) (digitsVal m)
  | _ => false

/-- Model of `CineDataEtl.check_essential_fields`: both `title` and
`release_date` must be present and truthy (`movie.get(field)` yields
None when absent). -/
def check_essential_fields (movie : Record) : Bool :=
  truthy (dictGetD movie "title" .none) &&
  truthy (dictGetD movie "release_date" .none)

/-- Model of `CineDataEtl.check_release_date`: `strptime` succeeds on a
string in valid `%Y-%m-%d` form; a missing value (None) or a non-string
raises TypeError, which the function catches and turns into `False`. -/
def check_release_date (movie : Record) : Bool :=
  match dictGetD movie "release_date" .none with
  | .vstr s => validYMD s
  | _ => false

/-- Model of `isinstance(x, (int, float))`.  Python's `bool` is a
subclass of `int`, so booleans pass this test. -/
def isNumberInstance : PyVal → Bool
  | .vbool _ => true
  | .vint _ => true
  | .vfloat _ => true
  | _ => false

/-- Model of `CineDataEtl.check_numeric_fields`. -/
def check_numeric_fields (movie : Record) : Bool :=
  ["vote_average", "vote_count", "popularity"].all
    (fun f => isNumberInstance (dictGetD movie f .none))

/-- Python whitespace stripped by `str.strip()` (ASCII part). -/
def isPyWs (c : Char) : Bool :=
  c = ' ' || c = '\t' || c = '\n' || c = '\r' || c = '\x0b' || c = '\x0c'

/-- Model of `str.strip()`. -/
def stripStr (s : String) : String :=
  ⟨((s.toList.dropWhile isPyWs).reverse.dropWhile isPyWs).reverse⟩

/-- Model of `CineDataEtl.clean_overview`: the overview defaults to `''`
when absent, a falsy value becomes `''`, a truthy string is stripped,
and a truthy non-string raises AttributeError on `.strip()` (modelled
as `Option.none`; the caller's try/except then drops the record). -/
def clean_overview (movie : Record) : Option PyVal :=
  let text := dictGetD movie "overview" (.vstr "")
  if truthy text = false then some (.vstr "")
  else
    match text with
    | .vstr s => some (.vstr (stripStr s))
    | _ => Option.none

/-- The conjunction of the three validation checks run by
`cleanup_data`. -/
def passesChecks (movie : Record) : Bool :=
  check_essential_fields movie && check_release_date movie &&
  check_numeric_fields movie

/-- Python `set` members must be hashable; a list id raises TypeError
at `dataset['id'] in seen_ids`. -/
def isUnhashable : PyVal → Bool
  | .vlist _ => true
  | _ => false

/-- Worker loop of `CineDataEtl.cleanup_data`, carrying the `seen_ids`
set.  Per record: `dataset['id']` raises KeyError when absent (record
dropped by the surrounding try/except); a duplicate id is skipped
BEFORE validation; a record failing any check is skipped; setting the
cleaned overview can raise AttributeError (record dropped); otherwise
the record, with its overview replaced, is kept and its id remembered. -/
def cleanupGo : List Record → List PyVal → List Record
  | [], _ => []
  | r :: rest, seen =>
      match dictGetItem r "id" with
      | Option.none => cleanupGo rest seen
      | some idv =>
          if isUnhashable idv then cleanupGo rest seen
          else if seen.any (fun s => pyEq idv s) then cleanupGo rest seen
          else if passesChecks r = false then cleanupGo rest seen
          else
            match clean_overview r with
            | Option.none => cleanupGo rest seen
            | some ov => dictSet r "overview" ov :: cleanupGo rest (idv :: seen)

/-- Model of `CineDataEtl.cleanup_data`. -/
def cleanup_data (raw : List Record) : List Record :=
  cleanupGo raw []

/-- The seven movie columns `filter_data` projects onto. -/
def movieCols : List String :=
  ["id", "title", "overview", "release_date", "popularity", "vote_average",
   "vote_count"]

/-- Whether the DataFrame built from `rows` has column `c`:
`pd.DataFrame(list_of_dicts)` takes the union of the dicts' keys as
columns. -/
def dfHasCol (rows : List Record) (c : String) : Bool :=
  rows.any (fun r => hasKey r c)

/-- One projected movie row: `df_movies[[...seven columns...]]` keeps
exactly the seven columns (pandas fills NaN — modelled as None — for a
row missing a column that other rows supply). -/
def projectRow (r : Record) : Record :=
  movieCols.map (fun c => (c, dictGetD r c .none))

/-- Python iteration (`for genre_id in x`): lists yield their elements,
strings their characters; anything else raises TypeError. -/
def iterVal : PyVal → Option (List PyVal)
  | .vlist l => some l
  | .vstr s => some (s.toList.map (fun c => .vstr (String.singleton c)))
  | _ => Option.none

/-- The genre-id link loop of `filter_data`, row by row.  Accessing
`row['genre_ids']` raises KeyError when the column is absent from the
whole DataFrame, yields NaN (modelled None) when only this row lacks
it, and iterating a non-iterable raises TypeError. -/
def linkRows (all : List Record) : List Record → Except String (List Record)
  | [] => .ok []
  | r :: rest =>
      if dfHasCol all "genre_ids" = false then .error "KeyError: genre_ids"
      else
        match iterVal (dictGetD r "genre_ids" .none) with
        | Option.none => .error "TypeError: object is not iterable"
        | some gs =>
            (linkRows all rest).map
              (fun tail =>
                gs.map (fun g =>
                  [("movie_id", dictGetD r "id" .none), ("genre_id", g)]) ++ tail)

/-- Model of `CineDataEtl.filter_data`: project the movie columns
(raising KeyError when a requested column is missing from the
DataFrame — in particular for an empty record list, whose DataFrame
has no columns at all), pass the genre catalog through unchanged, and
flatten each movie's genre-id list into (movie_id, genre_id) link rows. -/
def filter_data (cleaned_data genres_list : List Record) :
    Except String (List Record × List Record × List Record) :=
  if (movieCols.all (fun c => dfHasCol cleaned_data c)) = false then
    .error "KeyError: movie columns not in index"
  else
    (linkRows cleaned_data cleaned_data).map
      (fun links => (cleaned_data.map projectRow, genres_list, links))

/-- The three tables of the relational store. -/
structure Store where
  movies : List Record
  genres : List Record
  movie_genres : List Record

/-- One bulk insert issued by `load_data_to_db` (`to_sql(...,
if_exists='append')`). -/
inductive WriteOp where
  | movies (rows : List Record)
  | genres (rows : List Record)
  | links (rows : List Record)

/-- Outcome of the three persisted-key reads (`pd.read_sql`) of one
`load_data_to_db` call: `false` means that read raises. -/
structure ReadOk where
  movies : Bool
  genres : Bool
  links : Bool

/-- The `id` column of a row. -/
def idOf (r : Record) : PyVal :=
  dictGetD r "id" .none

/-- Single-column reconciliation used for movies and genres:
`df[~df['id'].isin(existing_ids)]` — keep, in order, the candidate
rows whose id is not Python-equal to any persisted id. -/
def reconcile_ids (cand : List Record) (existing : List PyVal) : List Record :=
  cand.filter (fun r => !(existing.any (fun e => pyEq (idOf r) e)))

/-- Whether a candidate link row and a persisted link row agree on the
composite (movie_id, genre_id) key. -/
def linkKeyMatch (c p : Record) : Bool :=
  pyEq (dictGetD c "movie_id" .none) (dictGetD p "movie_id" .none) &&
  pyEq (dictGetD c "genre_id" .none) (dictGetD p "genre_id" .none)

/-- Composite-key reconciliation used for the link table: the
`merge(..., on=['movie_id','genre_id'], how='left', indicator=True)`
followed by keeping the `'left_only'` rows is the anti-join keeping,
in order, the candidate rows whose pair matches no persisted row. -/
def reconcile_links (cand persisted : List Record) : List Record :=
  cand.filter (fun r => !(persisted.any (fun p => linkKeyMatch r p)))

/-- Delta computed for the movies table against a store state. -/
def moviesDelta (movies_df : List Record) (st : Store) : List Record :=
  reconcile_ids movies_df (st.movies.map idOf)

/-- Delta computed for the genres table against a store state. -/
def genresDelta (genres_df : List Record) (st : Store) : List Record :=
  reconcile_ids genres_df (st.genres.map idOf)

/-- Delta computed for the link table against a store state. -/
def linksDelta (movie_genres_df : List Record) (st : Store) : List Record :=
  reconcile_links movie_genres_df st.movie_genres

/-- Model of `CineDataEtl.load_data_to_db`.  A SINGLE try/except wraps
all three read-reconcile-append blocks, executed in the fixed order
movies, genres, movie_genres; a failing persisted-key read raises and
control jumps to the except handler, so the failing table and every
later table are skipped, while appends already executed stand.  The
state update appends the delta (appending the empty delta equals the
source's skipped `to_sql`); the write log records only the `to_sql`
calls actually issued, i.e. those with a non-empty delta. -/
def load_data_to_db (ro : ReadOk)
    (movies_df genres_df movie_genres_df : List Record) (st : Store) :
    Store × List WriteOp :=
  if ro.movies = false then (st, [])
  else
    let newM := moviesDelta movies_df st
    let st1 : Store := { st with movies := st.movies ++ newM }
    let log1 : List WriteOp := if newM.isEmpty then [] else [.movies newM]
    if ro.genres = false then (st1, log1)
    else
      let newG := genresDelta genres_df st1
      let st2 : Store := { st1 with genres := st1.genres ++ newG }
      let log2 : List WriteOp := if newG.isEmpty then [] else [.genres newG]
      if ro.links = false then (st2, log1 ++ log2)
      else
        let newL := linksDelta movie_genres_df st2
        let st3 : Store := { st2 with movie_genres := st2.movie_genres ++ newL }
        let log3 : List WriteOp := if newL.isEmpty then [] else [.links newL]
        (st3, log1 ++ log2 ++ log3)

theorem linkKeyMatch_refl (r : Record) : linkKeyMatch r r = true := by
  simp [linkKeyMatch, pyEq_refl]

theorem reconcile_ids_idem (cand : List Record) (ids : List PyVal) :
    reconcile_ids cand (ids ++ (reconcile_ids cand ids).map idOf) = [] := by
  apply List.filter_eq_nil_iff.mpr
  intro r hr
  simp only [List.any_append, Bool.not_eq_true', Bool.not_eq_false,
    Bool.or_eq_true]
  by_cases h : ids.any (fun e => pyEq (idOf r) e) = true
  · exact Or.inl h
  · refine Or.inr (List.any_eq_true.mpr ⟨idOf r, ?_, ?_⟩)
    · exact List.mem_map_of_mem idOf
        (List.mem_filter.mpr ⟨hr, by simp [h]⟩)
    · exact pyEq_refl (idOf r)

theorem reconcile_links_idem (cand persisted : List Record) :
    reconcile_links cand (persisted ++ reconcile_links cand persisted) = [] := by
  apply List.filter_eq_nil_iff.mpr
  intro r hr
  simp only [List.any_append, Bool.not_eq_true', Bool.not_eq_false,
    Bool.or_eq_true]
  by_cases h : persisted.any (fun p => linkKeyMatch r p) = true
  · exact Or.inl h
  · refine Or.inr (List.any_eq_true.mpr ⟨r, ?_, linkKeyMatch_refl r⟩)
    exact List.mem_filter.mpr ⟨hr, by simp [h]⟩

theorem load_allOk_eq (m g l : List Record) (st : Store) :
    load_data_to_db ⟨true, true, true⟩ m g l st =
      ({ movies := st.movies ++ moviesDelta m st,
         genres := st.genres ++ genresDelta g st,
         movie_genres := st.movie_genres ++ linksDelta l st },
       (if (moviesDelta m st).isEmpty then []
        else [WriteOp.movies (moviesDelta m st)]) ++
       (if (genresDelta g st).isEmpty then []
        else [WriteOp.genres (genresDelta g st)]) ++
       (if (linksDelta l st).isEmpty then []
        else [WriteOp.links (linksDelta l st)])) := rfl

/-- Per-record normalization performed on a kept record: the overview
is replaced by its cleaned value (records whose `clean_overview`
raises are never kept). -/
def normalizeRec (r : Record) : Record :=
  match clean_overview r with
  | some ov => dictSet r "overview" ov
  | Option.none => r

theorem idOf_normalize_of_kept (r : Record) (idv ov : PyVal)
    (hid : dictGetItem r "id" = some idv) :
    idOf (dictSet r "overview" ov) = idv := by
  unfold idOf
  rw [dictGetD_dictSet_ne _ _ _ _ _ (by decide)]
  exact dictGetItem_eq_some_imp_getD _ _ _ _ hid

theorem cleanupGo_fresh (raw : List Record) :
    ∀ (seen : List PyVal) (v : PyVal), v ∈ seen →
      ∀ r' ∈ cleanupGo raw seen, pyEq (idOf r') v = false := by
  induction raw with
  | nil => intro seen v _ r' hr'; simp [cleanupGo] at hr'
  | cons r rest ih =>
      intro seen v hv r' hr'
      rw [cleanupGo] at hr'
      cases hid : dictGetItem r "id" with
      | none =>
          rw [hid] at hr'
          exact ih seen v hv r' hr'
      | some idv =>
          rw [hid] at hr'
          by_cases hunh : isUnhashable idv = true
          · simp only [hunh, if_true] at hr'
            exact ih seen v hv r' hr'
          · simp only [Bool.not_eq_true] at hunh
            simp only [hunh, Bool.false_eq_true, if_false] at hr'
            by_cases hseen : (seen.any fun s => pyEq idv s) = true
            · simp only [hseen, if_true] at hr'
              exact ih seen v hv r' hr'
            · simp only [Bool.not_eq_true] at hseen
              simp only [hseen, Bool.false_eq_true, if_false] at hr'
              by_cases hpass : passesChecks r = false
              · simp only [hpass, if_true] at hr'
                exact ih seen v hv r' hr'
              · simp only [hpass, if_false] at hr'
                cases hov : clean_overview r with
                | none =>
                    rw [hov] at hr'
                    exact ih seen v hv r' hr'
                | some ov =>
                    rw [hov] at hr'
                    rcases List.mem_cons.mp hr' with heq | htail
                    · subst heq
                      rw [idOf_normalize_of_kept r idv ov hid]
                      simpa using List.any_eq_false.mp hseen v hv
                    · exact ih (idv :: seen) v (List.mem_cons_of_mem _ hv)
                        r' htail

theorem cleanupGo_pairwise (raw : List Record) :
    ∀ seen : List PyVal,
      (cleanupGo raw seen).Pairwise
        (fun a b => pyEq (idOf b) (idOf a) = false) := by
  induction raw with
  | nil => intro seen; simp [cleanupGo]
  | cons r rest ih =>
      intro seen
      rw [cleanupGo]
      cases hid : dictGetItem r "id" with
      | none => exact ih seen
      | some idv =>
          by_cases hunh : isUnhashable idv = true
          · simpa [hunh] using ih seen
          · simp only [Bool.not_eq_true] at hunh
            simp only [hunh, Bool.false_eq_true, if_false]
            by_cases hseen : (seen.any fun s => pyEq idv s) = true
            · simpa [hseen] using ih seen
            · simp only [Bool.not_eq_true] at hseen
              simp only [hseen, Bool.false_eq_true, if_false]
              by_cases hpass : passesChecks r = false
              · simpa [hpass] using ih seen
              · simp only [hpass, if_false]
                cases hov : clean_overview r with
                | none => exact ih seen
                | some ov =>
                    refine List.pairwise_cons.mpr ⟨?_, ih (idv :: seen)⟩
                    intro b hb
                    rw [idOf_normalize_of_kept r idv ov hid]
                    exact cleanupGo_fresh rest (idv :: seen) idv
                      (List.mem_cons_self _ _) b hb

theorem cleanupGo_sublist (raw : List Record) :
    ∀ seen : List PyVal,
      (cleanupGo raw seen).Sublist (raw.map normalizeRec) := by
  induction raw with
  | nil => intro seen; simp [cleanupGo]
  | cons r rest ih =>
      intro seen
      rw [cleanupGo, List.map_cons]
      cases hid : dictGetItem r "id" with
      | none => exact (ih seen).cons _
      | some idv =>
          by_cases hunh : isUnhashable idv = true
          · simpa [hunh] using (ih seen).cons _
          · simp only [Bool.not_eq_true] at hunh
            simp only [hunh, Bool.false_eq_true, if_false]
            by_cases hseen : (seen.any fun s => pyEq idv s) = true
            · simpa [hseen] using (ih seen).cons _
            · simp only [Bool.not_eq_true] at hseen
              simp only [hseen, Bool.false_eq_true, if_false]
              by_cases hpass : passesChecks r = false
              · simpa [hpass] using (ih seen).cons _
              · simp only [hpass, if_false]
                cases hov : clean_overview r with
                | none => exact (ih seen).cons _
                | some ov =>
                    have : normalizeRec r = dictSet r "overview" ov := by
                      simp [normalizeRec, hov]
                    rw [this]
                    exact (ih (idv :: seen)).cons₂ _

theorem cleanupGo_provenance (raw : List Record) :
    ∀ (seen : List PyVal) (r' : Record), r' ∈ cleanupGo raw seen →
      ∃ r ∈ raw, passesChecks r = true ∧ r' = normalizeRec r := by
  induction raw with
  | nil => intro seen r' hr'; simp [cleanupGo] at hr'
  | cons r rest ih =>
      intro seen r' hr'
      rw [cleanupGo] at hr'
      cases hid : dictGetItem r "id" with
      | none =>
          rw [hid] at hr'
          obtain ⟨x, hx, h1, h2⟩ := ih seen r' hr'
          exact ⟨x, List.mem_cons_of_mem _ hx, h1, h2⟩
      | some idv =>
          rw [hid] at hr'
          by_cases hunh : isUnhashable idv = true
          · simp only [hunh, if_true] at hr'
            obtain ⟨x, hx, h1, h2⟩ := ih seen r' hr'
            exact ⟨x, List.mem_cons_of_mem _ hx, h1, h2⟩
          · simp only [Bool.not_eq_true] at hunh
            simp only [hunh, Bool.false_eq_true, if_false] at hr'
            by_cases hseen : (seen.any fun s => pyEq idv s) = true
            · simp only [hseen, if_true] at hr'
              obtain ⟨x, hx, h1, h2⟩ := ih seen r' hr'
              exact ⟨x, List.mem_cons_of_mem _ hx, h1, h2⟩
            · simp only [Bool.not_eq_true] at hseen
              simp only [hseen, Bool.false_eq_true, if_false] at hr'
              by_cases hpass : passesChecks r = false
              · simp only [hpass, if_true] at hr'
                obtain ⟨x, hx, h1, h2⟩ := ih seen r' hr'
                exact ⟨x, List.mem_cons_of_mem _ hx, h1, h2⟩
              · simp only [hpass, if_false] at hr'
                cases hov : clean_overview r with
                | none =>
                    rw [hov] at hr'
                    obtain ⟨x, hx, h1, h2⟩ := ih seen r' hr'
                    exact ⟨x, List.mem_cons_of_mem _ hx, h1, h2⟩
                | some ov =>
                    rw [hov] at hr'
                    rcases List.mem_cons.mp hr' with heq | htail
                    · refine ⟨r, List.mem_cons_self _ _, ?_, ?_⟩
                      · simpa using hpass
                      · rw [heq]; simp [normalizeRec, hov]
                    · obtain ⟨x, hx, h1, h2⟩ := ih (idv :: seen) r' htail
                      exact ⟨x, List.mem_cons_of_mem _ hx, h1, h2⟩

theorem hasKey_of_getItem (r : Record) (k : String) (v : PyVal)
    (h : dictGetItem r k = some v) : hasKey r k = true := by
  induction r with
  | nil => simp [dictGetItem] at h
  | cons p rest ih =>
      obtain ⟨k0, v0⟩ := p
      by_cases hk : k0 = k
      · simp [hasKey, hk]
      · simp [dictGetItem, hk] at h
        simp [hasKey] at ih ⊢
        exact Or.inr (ih h)

/-- The genre-id list carried by a record (empty when the field is
absent or not a list). -/
def genreIdsOf (r : Record) : List PyVal :=
  match dictGetD r "genre_ids" .none with
  | .vlist l => l
  | _ => []

/-- The link rows one movie record contributes. -/
def linkRowsFor (r : Record) : List Record :=
  (genreIdsOf r).map
    (fun g => [("movie_id", dictGetD r "id" .none), ("genre_id", g)])

theorem linkRows_ok (all : List Record)
    (hcol : dfHasCol all "genre_ids" = true) :
    ∀ sub : List Record,
      (∀ r ∈ sub, ∃ gl, dictGetItem r "genre_ids" = some (.vlist gl)) →
      linkRows all sub = .ok (sub.flatMap linkRowsFor) := by
  intro sub
  induction sub with
  | nil => intro _; simp [linkRows]
  | cons r rest ih =>
      intro hgl
      obtain ⟨gl, hglr⟩ := hgl r (List.mem_cons_self _ _)
      have hget : dictGetD r "genre_ids" .none = .vlist gl :=
        dictGetItem_eq_some_imp_getD _ _ _ _ hglr
      have hrest := ih (fun x hx => hgl x (List.mem_cons_of_mem _ hx))
      rw [linkRows, hcol]
      simp only [Bool.true_eq_false, if_false, hget, iterVal, hrest,
        Except.map, List.flatMap_cons]
      have : genreIdsOf r = gl := by simp [genreIdsOf, hget]
      simp [linkRowsFor, this]

theorem cleanupGo_sublist_validated (raw : List Record) :
    ∀ seen : List PyVal,
      (cleanupGo raw seen).Sublist
        ((raw.filter passesChecks).map normalizeRec) := by
  induction raw with
  | nil => intro seen; simp [cleanupGo]
  | cons r rest ih =>
      intro seen
      rw [cleanupGo]
      by_cases hp : passesChecks r = true
      · rw [List.filter_cons_of_pos hp, List.map_cons]
        cases hid : dictGetItem r "id" with
        | none => exact (ih seen).cons _
        | some idv =>
            by_cases hunh : isUnhashable idv = true
            · simpa [hunh] using (ih seen).cons _
            · simp only [Bool.not_eq_true] at hunh
              simp only [hunh, Bool.false_eq_true, if_false]
              by_cases hseen : (seen.any fun s => pyEq idv s) = true
              · simpa [hseen] using (ih seen).cons _
              · simp only [Bool.not_eq_true] at hseen
                simp only [hseen, Bool.false_eq_true, if_false]
                rw [if_neg (by simp [hp])]
                cases hov : clean_overview r with
                | none => exact (ih seen).cons _
                | some ov =>
                    have hn : normalizeRec r = dictSet r "overview" ov := by
                      simp [normalizeRec, hov]
                    rw [hn]
                    exact (ih (idv :: seen)).cons₂ _
      · simp only [Bool.not_eq_true] at hp
        rw [List.filter_cons_of_neg (by simp [hp])]
        cases hid : dictGetItem r "id" with
        | none => exact ih seen
        | some idv =>
            by_cases hunh : isUnhashable idv = true
            · simpa [hunh] using ih seen
            · simp only [Bool.not_eq_true] at hunh
              simp only [hunh, Bool.false_eq_true, if_false]
              by_cases hseen : (seen.any fun s => pyEq idv s) = true
              · simpa [hseen] using ih seen
              · simp only [Bool.not_eq_true] at hseen
                simp only [hseen, Bool.false_eq_true, if_false]
                rw [if_pos (by simp [hp])]
                exact ih seen

/-- Whether a Python value is a string. -/
def isStrVal : PyVal → Bool
  | .vstr _ => true
  | _ => false

/-- The string carried by a string value (dummy otherwise). -/
def strOf : PyVal → String
  | .vstr s => s
  | _ => ""

/-- Table a write operation targets. -/
def WriteOp.isMoviesWrite : WriteOp → Bool
  | .movies _ => true
  | _ => false

def WriteOp.isGenresWrite : WriteOp → Bool
  | .genres _ => true
  | _ => false

def WriteOp.isLinksWrite : WriteOp → Bool
  | .links _ => true
  | _ => false

/-- A fully valid record whose overview has surrounding whitespace. -/
def recNice : Record :=
  [("id", PyVal.vint 4), ("title", PyVal.vstr "D"),
   ("release_date", PyVal.vstr "2024-05-06"),
   ("overview", PyVal.vstr "  nice film  "),
   ("popularity", PyVal.vfloat 1), ("vote_average", PyVal.vfloat 7),
   ("vote_count", PyVal.vint 100), ("genre_ids", PyVal.vlist [PyVal.vint 10])]

/-- A record with no `release_date` key at all. -/
def recNoDate : Record :=
  [("id", PyVal.vint 2), ("title", PyVal.vstr "B"),
   ("overview", PyVal.vstr "o"), ("popularity", PyVal.vfloat 1),
   ("vote_average", PyVal.vfloat 5), ("vote_count", PyVal.vint 10),
   ("genre_ids", PyVal.vlist [])]

/-- A record whose `release_date` is not a calendar date. -/
def recBadDate : Record :=
  [("id", PyVal.vint 3), ("title", PyVal.vstr "C"),
   ("release_date", PyVal.vstr "2024-13-40"),
   ("overview", PyVal.vstr "o"), ("popularity", PyVal.vfloat 1),
   ("vote_average", PyVal.vfloat 5), ("vote_count", PyVal.vint 10),
   ("genre_ids", PyVal.vlist [])]

/-- A valid record whose overview is null. -/
def recNullOv : Record :=
  [("id", PyVal.vint 6), ("title", PyVal.vstr "E"),
   ("release_date", PyVal.vstr "2021-12-31"), ("overview", PyVal.none),
   ("popularity", PyVal.vint 1), ("vote_average", PyVal.vint 1),
   ("vote_count", PyVal.vint 1), ("genre_ids", PyVal.vlist [])]

/-- A valid record with no overview key. -/
def recNoOv : Record :=
  [("id", PyVal.vint 7), ("title", PyVal.vstr "F"),
   ("release_date", PyVal.vstr "2021-12-31"),
   ("popularity", PyVal.vint 1), ("vote_average", PyVal.vint 1),
   ("vote_count", PyVal.vint 1), ("genre_ids", PyVal.vlist [])]

/-- Valid records for the duplicate-id example: ids 5, 6, 7, 5. -/
def recA5 : Record :=
  [("id", PyVal.vint 5), ("title", PyVal.vstr "First"),
   ("release_date", PyVal.vstr "2020-01-01"), ("overview", PyVal.vstr " a "),
   ("popularity", PyVal.vint 1), ("vote_average", PyVal.vint 1),
   ("vote_count", PyVal.vint 1), ("genre_ids", PyVal.vlist [])]

def recB6 : Record :=
  [("id", PyVal.vint 6), ("title", PyVal.vstr "Second"),
   ("release_date", PyVal.vstr "2020-01-02"), ("overview", PyVal.vstr "b"),
   ("popularity", PyVal.vint 1), ("vote_average", PyVal.vint 1),
   ("vote_count", PyVal.vint 1), ("genre_ids", PyVal.vlist [])]

def recC7 : Record :=
  [("id", PyVal.vint 7), ("title", PyVal.vstr "Third"),
   ("release_date", PyVal.vstr "2020-01-03"), ("overview", PyVal.vstr "c"),
   ("popularity", PyVal.vint 1), ("vote_average", PyVal.vint 1),
   ("vote_count", PyVal.vint 1), ("genre_ids", PyVal.vlist [])]

def recD5 : Record :=
  [("id", PyVal.vint 5), ("title", PyVal.vstr "Later"),
   ("release_date", PyVal.vstr "2020-02-02"), ("overview", PyVal.vstr "d"),
   ("popularity", PyVal.vint 1), ("vote_average", PyVal.vint 1),
   ("vote_count", PyVal.vint 1), ("genre_ids", PyVal.vlist [])]

/-- Cleaned records for the shaper example: one movie with a duplicated
genre id, one with an empty genre-id list. -/
def shA : Record :=
  [("id", PyVal.vint 1), ("title", PyVal.vstr "A"),
   ("overview", PyVal.vstr "o"), ("release_date", PyVal.vstr "2024-01-02"),
   ("popularity", PyVal.vint 1), ("vote_average", PyVal.vint 1),
   ("vote_count", PyVal.vint 1),
   ("genre_ids", PyVal.vlist [PyVal.vint 10, PyVal.vint 10])]

def shB : Record :=
  [("id", PyVal.vint 2), ("title", PyVal.vstr "B"),
   ("overview", PyVal.vstr "p"), ("release_date", PyVal.vstr "2024-01-03"),
   ("popularity", PyVal.vint 1), ("vote_average", PyVal.vint 1),
   ("vote_count", PyVal.vint 1), ("genre_ids", PyVal.vlist [])]

theorem accepted_singleton_checks (movie : Record)
    (h : (cleanup_data [movie]).length = 1) : passesChecks movie = true := by
  unfold cleanup_data at h
  rw [cleanupGo] at h
  cases hid : dictGetItem movie "id" with
  | none => rw [hid] at h; simp [cleanupGo] at h
  | some idv =>
      rw [hid] at h
      by_cases hunh : isUnhashable idv = true
      · simp [hunh, cleanupGo] at h
      · simp only [Bool.not_eq_true] at hunh
        simp only [hunh, Bool.false_eq_true, if_false, List.any_nil] at h
        by_cases hpass : passesChecks movie = false
        · simp [hpass, cleanupGo] at h
        · simpa using hpass

/-- C1 counterexample: the claim says that when exactly one table's
persisted-key read fails (here: the movies read), the other two tables'
deltas are still computed and appended.  In the code a single try/except
wraps all three loads, so with a non-empty genres delta waiting, a
movies-read failure appends nothing anywhere and issues no write. -/
theorem C1_counterexample :
    genresDelta [[("id", PyVal.vint 10), ("name", PyVal.vstr "Action")]]
        ⟨[], [], []⟩
      = [[("id", PyVal.vint 10), ("name", PyVal.vstr "Action")]]
    ∧ load_data_to_db ⟨false, true, true⟩ []
        [[("id", PyVal.vint 10), ("name", PyVal.vstr "Action")]] []
        ⟨[], [], []⟩
      = (⟨[], [], []⟩, []) :=
  ⟨rfl, rfl⟩

/-- C1 amended: a persisted-key read failure aborts the failing table's
load and every LATER table's load (single try/except around the three
blocks, executed movies → genres → links); appends already executed
before the failure stand.  If the movies read fails nothing is loaded;
if the genres read fails only movies were loaded; if the links read
fails movies and genres were loaded. -/
theorem C1_amended_failure_boundary (m g l : List Record) (st : Store) :
    (∀ b1 b2 : Bool, load_data_to_db ⟨false, b1, b2⟩ m g l st = (st, []))
    ∧ (∀ b2 : Bool,
        load_data_to_db ⟨true, false, b2⟩ m g l st
          = ({ st with movies := st.movies ++ moviesDelta m st },
             if (moviesDelta m st).isEmpty then []
             else [WriteOp.movies (moviesDelta m st)]))
    ∧ load_data_to_db ⟨true, true, false⟩ m g l st
        = ({ st with movies := st.movies ++ moviesDelta m st,
                     genres := st.genres ++ genresDelta g st },
           (if (moviesDelta m st).isEmpty then []
            else [WriteOp.movies (moviesDelta m st)]) ++
           (if (genresDelta g st).isEmpty then []
            else [WriteOp.genres (genresDelta g st)])) :=
  ⟨fun _ _ => rfl, fun _ => rfl, rfl⟩

/-- C2: idempotence of the load.  After one successful run (all three
persisted-key reads succeed), a second run with the identical candidate
dataframes computes an empty delta for all three tables, leaves the
store unchanged and issues no write. -/
theorem C2_load_idempotent (m g l : List Record) (st : Store) :
    moviesDelta m ((load_data_to_db ⟨true, true, true⟩ m g l st).1) = []
    ∧ genresDelta g ((load_data_to_db ⟨true, true, true⟩ m g l st).1) = []
    ∧ linksDelta l ((load_data_to_db ⟨true, true, true⟩ m g l st).1) = []
    ∧ load_data_to_db ⟨true, true, true⟩ m g l
        ((load_data_to_db ⟨true, true, true⟩ m g l st).1)
      = ((load_data_to_db ⟨true, true, true⟩ m g l st).1, []) := by
  have hm : moviesDelta m ((load_data_to_db ⟨true, true, true⟩ m g l st).1)
      = [] := by
    show reconcile_ids m ((st.movies ++ moviesDelta m st).map idOf) = []
    rw [List.map_append]
    exact reconcile_ids_idem m (st.movies.map idOf)
  have hg : genresDelta g ((load_data_to_db ⟨true, true, true⟩ m g l st).1)
      = [] := by
    show reconcile_ids g ((st.genres ++ genresDelta g st).map idOf) = []
    rw [List.map_append]
    exact reconcile_ids_idem g (st.genres.map idOf)
  have hl : linksDelta l ((load_data_to_db ⟨true, true, true⟩ m g l st).1)
      = [] := by
    show reconcile_links l (st.movie_genres ++ linksDelta l st) = []
    exact reconcile_links_idem l st.movie_genres
  refine ⟨hm, hg, hl, ?_⟩
  rw [load_allOk_eq m g l ((load_data_to_db ⟨true, true, true⟩ m g l st).1),
    hm, hg, hl]
  simp

/-- C4: link-table reconciliation is an anti-join on the composite
(movie_id, genre_id) pair: a candidate row is kept exactly when no
persisted row matches on BOTH columns; the delta depends only on the
persisted link pairs (not on the movies or genres tables); on the
spec's example, persisted pair (1,10) removes only the first candidate
and (2,10), (3,10) survive. -/
theorem C4_link_anti_join :
    (∀ (cand persisted : List Record) (r : Record),
        r ∈ reconcile_links cand persisted ↔
          r ∈ cand ∧ (persisted.any fun p => linkKeyMatch r p) = false)
    ∧ (∀ (l ms1 gs1 ms2 gs2 mg : List Record),
        linksDelta l ⟨ms1, gs1, mg⟩ = linksDelta l ⟨ms2, gs2, mg⟩)
    ∧ reconcile_links
        [[("movie_id", PyVal.vint 1), ("genre_id", PyVal.vint 10)],
         [("movie_id", PyVal.vint 2), ("genre_id", PyVal.vint 10)],
         [("movie_id", PyVal.vint 3), ("genre_id", PyVal.vint 10)]]
        [[("movie_id", PyVal.vint 1), ("genre_id", PyVal.vint 10)]]
      = [[("movie_id", PyVal.vint 2), ("genre_id", PyVal.vint 10)],
         [("movie_id", PyVal.vint 3), ("genre_id", PyVal.vint 10)]] := by
  refine ⟨?_, fun _ _ _ _ _ _ => rfl, rfl⟩
  intro cand persisted r
  simp [reconcile_links, List.mem_filter]

/-- C5: movies/genres reconciliation is a single-column set difference
on the id: the result keeps exactly the candidate rows whose id is not
Python-equal to any persisted id and is a sublist of the candidates
(relative order preserved); `load_data_to_db` computes exactly this for
the movies and genres tables. -/
theorem C5_single_column_set_difference :
    (∀ (cand : List Record) (existing : List PyVal),
        (reconcile_ids cand existing).Sublist cand)
    ∧ (∀ (cand : List Record) (existing : List PyVal) (r : Record),
        r ∈ reconcile_ids cand existing ↔
          r ∈ cand ∧ (existing.any fun e => pyEq (idOf r) e) = false)
    ∧ (∀ (m : List Record) (st : Store),
        moviesDelta m st = reconcile_ids m (st.movies.map idOf))
    ∧ (∀ (g : List Record) (st : Store),
        genresDelta g st = reconcile_ids g (st.genres.map idOf)) := by
  refine ⟨?_, ?_, fun _ _ => rfl, fun _ _ => rfl⟩
  · intro cand existing
    exact List.filter_sublist cand
  · intro cand existing r
    simp [reconcile_ids, List.mem_filter]

/-- C3 counterexample: the claim says a record whose `vote_average` is
a boolean is rejected by validation.  In Python `bool` is a subclass of
`int`, so `isinstance(True, (int, float))` holds: the numeric check
passes and `cleanup_data` keeps the record. -/
theorem C3_counterexample :
    check_numeric_fields
        [("id", PyVal.vint 1), ("title", PyVal.vstr "T"),
         ("release_date", PyVal.vstr "2024-05-06"),
         ("overview", PyVal.vstr "x"), ("popularity", PyVal.vint 3),
         ("vote_average", PyVal.vbool true), ("vote_count", PyVal.vint 5)]
      = true
    ∧ (cleanup_data
        [[("id", PyVal.vint 1), ("title", PyVal.vstr "T"),
          ("release_date", PyVal.vstr "2024-05-06"),
          ("overview", PyVal.vstr "x"), ("popularity", PyVal.vint 3),
          ("vote_average", PyVal.vbool true), ("vote_count", PyVal.vint 5)]]).length
      = 1 :=
  ⟨rfl, rfl⟩

/-- C3 amended: the numeric check accepts a record exactly when each of
vote_average, vote_count and popularity is an `isinstance(·, (int,
float))` value; strings and nulls fail the predicate, but booleans PASS
it (Python's `bool` subclasses `int`), so a boolean metric field is
accepted, not rejected. -/
theorem C3_amended_numeric_check (movie : Record) :
    (check_numeric_fields movie = true ↔
      (isNumberInstance (dictGetD movie "vote_average" PyVal.none) = true
        ∧ isNumberInstance (dictGetD movie "vote_count" PyVal.none) = true
        ∧ isNumberInstance (dictGetD movie "popularity" PyVal.none) = true))
    ∧ (∀ s, isNumberInstance (PyVal.vstr s) = false)
    ∧ isNumberInstance PyVal.none = false
    ∧ (∀ b, isNumberInstance (PyVal.vbool b) = true) := by
  refine ⟨?_, fun _ => rfl, rfl, fun _ => rfl⟩
  simp [check_numeric_fields, and_assoc]

/-- C6: on a single-record batch, acceptance by `cleanup_data` implies
title and release_date are present and truthy and the release date
passes `check_release_date`; a passing `check_release_date` means the
stored value is a string in valid `YYYY-MM-DD` calendar form; a record
missing release_date and one with "2024-13-40" are both rejected; an
accepted record's overview is whitespace-trimmed, and a null or missing
overview becomes the empty string instead of a rejection. -/
theorem C6_validator_contract :
    (∀ movie : Record, (cleanup_data [movie]).length = 1 →
        truthy (dictGetD movie "title" PyVal.none) = true
        ∧ truthy (dictGetD movie "release_date" PyVal.none) = true
        ∧ check_release_date movie = true)
    ∧ (∀ movie : Record, check_release_date movie = true →
        isStrVal (dictGetD movie "release_date" PyVal.none) = true
        ∧ validYMD (strOf (dictGetD movie "release_date" PyVal.none)) = true)
    ∧ cleanup_data [recNoDate] = []
    ∧ cleanup_data [recBadDate] = []
    ∧ validYMD "2024-13-40" = false
    ∧ cleanup_data [recNice]
        = [dictSet recNice "overview" (PyVal.vstr "nice film")]
    ∧ dictGetD (dictSet recNice "overview" (PyVal.vstr "nice film"))
        "overview" PyVal.none = PyVal.vstr "nice film"
    ∧ (cleanup_data [recNullOv]).map (fun r => dictGetD r "overview" PyVal.none)
        = [PyVal.vstr ""]
    ∧ (cleanup_data [recNoOv]).map (fun r => dictGetD r "overview" PyVal.none)
        = [PyVal.vstr ""] := by
  refine ⟨?_, ?_, rfl, rfl, rfl, rfl, rfl, rfl, rfl⟩
  · intro movie h
    have hp := accepted_singleton_checks movie h
    have h1 : check_essential_fields movie = true
        ∧ check_release_date movie = true
        ∧ check_numeric_fields movie = true := by
      simpa [passesChecks, Bool.and_eq_true, and_assoc] using hp
    have h2 : truthy (dictGetD movie "title" PyVal.none) = true
        ∧ truthy (dictGetD movie "release_date" PyVal.none) = true := by
      simpa [check_essential_fields, Bool.and_eq_true] using h1.1
    exact ⟨h2.1, h2.2, h1.2.1⟩
  · intro movie h
    unfold check_release_date at h
    split at h
    · rename_i s heq
      rw [heq]
      exact ⟨rfl, h⟩
    · simp at h

/-- C6 witness: the fully valid record `recNice` is accepted, and the
implications of `C6_validator_contract` are non-vacuous at it. -/
theorem C6_validator_contract_witness :
    (cleanup_data [recNice]).length = 1
    ∧ truthy (dictGetD recNice "title" PyVal.none) = true
    ∧ check_release_date recNice = true
    ∧ validYMD (strOf (dictGetD recNice "release_date" PyVal.none)) = true := by
  have h := C6_validator_contract
  have ha := h.1 recNice rfl
  have hb := h.2.1 recNice ha.2.2
  exact ⟨rfl, ha.1, ha.2.2, hb.2⟩

/-- C7: deduplication in `cleanup_data` — any two distinct records of
the output have ids that are not Python-equal (at most one record per
identifier); the output is, in order, a sublist of the normalizations
of the records that pass validation (first-seen order preserved, every
kept record is a validated record with its overview cleaned); on a
batch with id 5 at positions 0 and 3, only the position-0 record
survives. -/
theorem C7_dedup_first_occurrence (raw : List Record) :
    (cleanup_data raw).Pairwise (fun a b => pyEq (idOf b) (idOf a) = false)
    ∧ (cleanup_data raw).Sublist ((raw.filter passesChecks).map normalizeRec)
    ∧ cleanup_data [recA5, recB6, recC7, recD5]
        = [normalizeRec recA5, normalizeRec recB6, normalizeRec recC7] :=
  ⟨cleanupGo_pairwise raw [], cleanupGo_sublist_validated raw [], rfl⟩

/-- C8: for a non-empty cleaned batch whose records carry the seven
movie attributes and a genre-id list, the shaper succeeds and its link
table is exactly: for every movie in batch order, for every genre id
in that movie's list in list order, one (movie_id, genre_id) row —
verbatim, so an empty list contributes zero rows and duplicates inside
one movie's list are preserved, with no deduplication at this stage. -/
theorem C8_shaper_link_rows (cleaned genres_list : List Record)
    (hne : cleaned ≠ [])
    (hkeys : ∀ r ∈ cleaned, (movieCols.all fun c => hasKey r c) = true)
    (hgl : ∀ r ∈ cleaned,
      ∃ gl, dictGetItem r "genre_ids" = some (PyVal.vlist gl)) :
    filter_data cleaned genres_list =
      .ok (cleaned.map projectRow, genres_list,
        cleaned.flatMap linkRowsFor) := by
  cases cleaned with
  | nil => exact absurd rfl hne
  | cons r0 rest =>
      have hcols : (movieCols.all fun c => dfHasCol (r0 :: rest) c) = true := by
        apply List.all_eq_true.mpr
        intro c hc
        exact List.any_eq_true.mpr ⟨r0, List.mem_cons_self _ _,
          List.all_eq_true.mp (hkeys r0 (List.mem_cons_self _ _)) c hc⟩
      have hgcol : dfHasCol (r0 :: rest) "genre_ids" = true := by
        obtain ⟨gl, hglr⟩ := hgl r0 (List.mem_cons_self _ _)
        exact List.any_eq_true.mpr ⟨r0, List.mem_cons_self _ _,
          hasKey_of_getItem _ _ _ hglr⟩
      unfold filter_data
      rw [hcols, linkRows_ok (r0 :: rest) hgcol (r0 :: rest) hgl]
      simp [Except.map]

/-- C8 witness: a concrete two-movie batch — one movie with the genre
id 10 listed twice (both rows emitted), one with an empty genre list
(zero rows emitted). -/
theorem C8_shaper_link_rows_witness :
    filter_data [shA, shB]
        [[("id", PyVal.vint 10), ("name", PyVal.vstr "Action")]]
      = .ok ([projectRow shA, projectRow shB],
             [[("id", PyVal.vint 10), ("name", PyVal.vstr "Action")]],
             [[("movie_id", PyVal.vint 1), ("genre_id", PyVal.vint 10)],
              [("movie_id", PyVal.vint 1), ("genre_id", PyVal.vint 10)]]) := by
  have h := C8_shaper_link_rows [shA, shB]
    [[("id", PyVal.vint 10), ("name", PyVal.vstr "Action")]]
    (by simp)
    (by
      intro r hr
      rcases List.mem_cons.mp hr with rfl | h1
      · decide
      rcases List.mem_cons.mp h1 with rfl | h2
      · decide
      · simp at h2)
    (by
      intro r hr
      rcases List.mem_cons.mp hr with rfl | h1
      · exact ⟨[PyVal.vint 10, PyVal.vint 10], rfl⟩
      rcases List.mem_cons.mp h1 with rfl | h2
      · exact ⟨[], rfl⟩
      · simp at h2)
  exact h

/-- C9: the persister is append-only — after a load with all reads
succeeding, every table equals its old rows followed by the computed
delta (no pre-existing row is updated or deleted), and a table whose
delta is empty receives no write operation at all. -/
theorem C9_persister_append_only (m g l : List Record) (st : Store) :
    ((load_data_to_db ⟨true, true, true⟩ m g l st).1.movies
        = st.movies ++ moviesDelta m st
      ∧ (load_data_to_db ⟨true, true, true⟩ m g l st).1.genres
        = st.genres ++ genresDelta g st
      ∧ (load_data_to_db ⟨true, true, true⟩ m g l st).1.movie_genres
        = st.movie_genres ++ linksDelta l st)
    ∧ (moviesDelta m st = [] →
        ∀ w ∈ (load_data_to_db ⟨true, true, true⟩ m g l st).2,
          w.isMoviesWrite = false)
    ∧ (genresDelta g st = [] →
        ∀ w ∈ (load_data_to_db ⟨true, true, true⟩ m g l st).2,
          w.isGenresWrite = false)
    ∧ (linksDelta l st = [] →
        ∀ w ∈ (load_data_to_db ⟨true, true, true⟩ m g l st).2,
          w.isLinksWrite = false) := by
  refine ⟨⟨rfl, rfl, rfl⟩, ?_, ?_, ?_⟩
  · intro h w hw
    rw [load_allOk_eq, h] at hw
    simp only [List.isEmpty_nil, if_true, List.nil_append,
      List.mem_append] at hw
    rcases hw with hw | hw <;> split at hw <;>
      first
        | exact absurd hw (List.not_mem_nil w)
        | (rw [List.mem_singleton] at hw; subst hw; rfl)
  · intro h w hw
    rw [load_allOk_eq, h] at hw
    simp only [List.isEmpty_nil, if_true, List.mem_append,
      List.append_nil] at hw
    rcases hw with hw | hw <;> split at hw <;>
      first
        | exact absurd hw (List.not_mem_nil w)
        | (rw [List.mem_singleton] at hw; subst hw; rfl)
  · intro h w hw
    rw [load_allOk_eq, h] at hw
    simp only [List.isEmpty_nil, if_true, List.mem_append,
      List.append_nil] at hw
    rcases hw with hw | hw <;> split at hw <;>
      first
        | exact absurd hw (List.not_mem_nil w)
        | (rw [List.mem_singleton] at hw; subst hw; rfl)
  
/-- C9 witness: empty movie and link candidates give empty deltas; the
store keeps its genre append-only shape and the genres write issued is
not a movies or links write. -/
theorem C9_persister_append_only_witness :
    (load_data_to_db ⟨true, true, true⟩ []
        [[("id", PyVal.vint 10), ("name", PyVal.vstr "Action")]] []
        ⟨[], [], []⟩).1.genres
      = (⟨[], [], []⟩ : Store).genres
        ++ genresDelta [[("id", PyVal.vint 10), ("name", PyVal.vstr "Action")]]
             ⟨[], [], []⟩
    ∧ WriteOp.isMoviesWrite
        (WriteOp.genres [[("id", PyVal.vint 10), ("name", PyVal.vstr "Action")]])
      = false := by
  have h := C9_persister_append_only []
    [[("id", PyVal.vint 10), ("name", PyVal.vstr "Action")]] [] ⟨[], [], []⟩
  refine ⟨h.1.2.1, ?_⟩
  refine h.2.1 rfl _ ?_
  show _ ∈ [WriteOp.genres [[("id", PyVal.vint 10), ("name", PyVal.vstr "Action")]]]
  exact List.mem_singleton.mpr rfl

/-- C10: the shaper fails on an empty batch — `pd.DataFrame([])` has no
columns, so the projection onto the seven movie columns raises KeyError
instead of returning three empty tables; hence the unstated
precondition that the cleaned batch be non-empty (and, per
`C8_shaper_link_rows`, that each record carry the seven movie
attributes and a genre-id list). -/
theorem C10_empty_batch_error (genres_list : List Record) :
    filter_data [] genres_list
      = .error "KeyError: movie columns not in index" := rfl
